import Mathlib

/-!
Shallow embedding of `src/binput.py` (package `binput`): a small binary I/O
library exposing a file-backed `BinaryReader`, an in-memory `MemoryWriter`
(subclass of `BytesIO`), and a file-backed `BinaryWriter`, all parameterised
by a `BinaryEndian` tag fed to Python `struct.pack` / `struct.unpack`.

Modelling conventions:
* a byte medium is a `List Nat` of byte values (each < 256 where produced);
* the file position / `BytesIO` position is a `Nat` field `pos`;
* Python `struct.pack(fmt, v)` is `pk`, which returns `none` exactly when
  CPython raises `struct.error` (value out of range or unknown format);
* Python `struct.unpack(fmt, bs)` is `up`, which returns `none` exactly when
  CPython raises `struct.error` (buffer length differs from `calcsize(fmt)`);
* Python dynamic attribute lookup on `self` is modelled by per-class method
  tables (`getMethod`) and attribute-name lists (`attrNames`) transcribed
  from the class bodies; a lookup miss is an `AttributeError`;
* exceptions are `Except String`; a raised exception propagates to the
  caller (the error value records which exception the interpreter raises).
-/

/-- The `BinaryEndian` enum of the source: `LITTLE = "<"`, `BIG = ">"`,
the byte-order character prepended to every struct format string. -/
inductive BinaryEndian where
  | LITTLE
  | BIG
deriving DecidableEq, Repr

/-- Little-endian byte decomposition at a fixed width, the byte layout
`struct` uses for `"<"` formats: least-significant byte first. -/
def natToBytesLE : Nat → Nat → List Nat
  | 0, _ => []
  | w + 1, v => v % 256 :: natToBytesLE w (v / 256)

/-- Recompose a little-endian byte list into the value it denotes. -/
def bytesToNatLE : List Nat → Nat
  | [] => 0
  | b :: bs => b + 256 * bytesToNatLE bs

/-- Byte order applied by the endian tag: `"<"` keeps the little-endian
layout, `">"` emits the bytes most-significant first. -/
def applyEndian (e : BinaryEndian) (bs : List Nat) : List Nat :=
  match e with
  | .LITTLE => bs
  | .BIG => bs.reverse

/-- Width in bytes and signedness of each struct format character used by
the source (`B b H h I i Q q`); `none` for any other format string. -/
def structInfo : String → Option (Nat × Bool)
  | "B" => some (1, false)
  | "b" => some (1, true)
  | "H" => some (2, false)
  | "h" => some (2, true)
  | "I" => some (4, false)
  | "i" => some (4, true)
  | "Q" => some (8, false)
  | "q" => some (8, true)
  | _ => none

/-- Python `struct.pack(endian ++ type, number)`: range-checks the value
against the format width and signedness (raising `struct.error`, i.e.
`none`, when it does not fit), encodes signed values in two's complement,
and lays the bytes out in the requested byte order. -/
def pk (e : BinaryEndian) (type : String) (number : Int) : Option (List Nat) :=
  match structInfo type with
  | none => none
  | some (w, signed) =>
    if signed then
      if -(2 ^ (8 * w - 1) : Int) ≤ number ∧ number < (2 ^ (8 * w - 1) : Int) then
        some (applyEndian e (natToBytesLE w (number % (2 ^ (8 * w) : Int)).toNat))
      else none
    else
      if 0 ≤ number ∧ number < (2 ^ (8 * w) : Int) then
        some (applyEndian e (natToBytesLE w number.toNat))
      else none

/-- Python `struct.unpack(endian ++ type, bs)[0]`: raises `struct.error`
(`none`) unless the buffer length equals the format size, undoes the byte
order, and reinterprets the value as signed two's complement when the
format character is lowercase. -/
def up (e : BinaryEndian) (type : String) (bs : List Nat) : Option Int :=
  match structInfo type with
  | none => none
  | some (w, signed) =>
    if bs.length = w then
      let u := bytesToNatLE (applyEndian e bs)
      if signed then
        some (if u < 2 ^ (8 * w - 1) then (u : Int) else (u : Int) - 2 ^ (8 * w))
      else some (u : Int)
    else none

/-- State of an open `BinaryReader`: the bytes of the underlying file, the
file-descriptor position, and the endian tag fixed at construction. -/
structure ReaderState where
  endian : BinaryEndian
  buf : List Nat
  pos : Nat
deriving DecidableEq, Repr

/-- State of a `MemoryWriter` (a `BytesIO` subclass) or an open
`BinaryWriter`: the accumulated bytes, the cursor, and the endian tag. -/
structure WriterState where
  endian : BinaryEndian
  buf : List Nat
  pos : Nat
deriving DecidableEq, Repr

/-- A reader over the given bytes, positioned at offset 0, as produced by
`BinaryReader(path, endian).open()` on a file holding those bytes. -/
def readerOver (e : BinaryEndian) (bs : List Nat) : ReaderState :=
  ⟨e, bs, 0⟩

/-- A fresh `MemoryWriter(endian)`: empty buffer, cursor at 0. -/
def freshWriter (e : BinaryEndian) : WriterState :=
  ⟨e, [], 0⟩

/-- `BinaryReader.read(number)`: `self.fp.read(number)` — returns the next
`number` bytes, or fewer when fewer remain (a short read is not an error
for a Python file object), advancing the position by the count returned. -/
def BinaryReader.read (s : ReaderState) (number : Nat) : List Nat × ReaderState :=
  let bs := (s.buf.drop s.pos).take number
  (bs, { s with pos := s.pos + bs.length })

/-- `BinaryReader.unpack(type, size)`:
`struct.unpack(endian.value + type, self.read(size))[0]`. -/
def BinaryReader.unpack (s : ReaderState) (type : String) (size : Nat) :
    Option Int × ReaderState :=
  let r := BinaryReader.read s size
  (up s.endian type r.1, r.2)

/-- `BinaryReader.read_u8`: `self.unpack("B", 1)`. -/
def BinaryReader.read_u8 (s : ReaderState) : Option Int × ReaderState :=
  BinaryReader.unpack s "B" 1

/-- `BinaryReader.read_i8`: `self.unpack("b", 1)`. -/
def BinaryReader.read_i8 (s : ReaderState) : Option Int × ReaderState :=
  BinaryReader.unpack s "b" 1

/-- `BinaryReader.read_u16`: `self.unpack("H", 2)`. -/
def BinaryReader.read_u16 (s : ReaderState) : Option Int × ReaderState :=
  BinaryReader.unpack s "H" 2

/-- `BinaryReader.read_i16`: `self.unpack("h", 2)`. -/
def BinaryReader.read_i16 (s : ReaderState) : Option Int × ReaderState :=
  BinaryReader.unpack s "h" 2

/-- `BinaryReader.read_u32`: `self.unpack("I", 4)`. -/
def BinaryReader.read_u32 (s : ReaderState) : Option Int × ReaderState :=
  BinaryReader.unpack s "I" 4

/-- `BinaryReader.read_i32`: `self.unpack("i", 4)`. -/
def BinaryReader.read_i32 (s : ReaderState) : Option Int × ReaderState :=
  BinaryReader.unpack s "i" 4

/-- `BinaryReader.read_u64`: `self.unpack("Q", 8)`. -/
def BinaryReader.read_u64 (s : ReaderState) : Option Int × ReaderState :=
  BinaryReader.unpack s "Q" 8

/-- `BinaryReader.read_i64`: `self.unpack("q", 8)`. -/
def BinaryReader.read_i64 (s : ReaderState) : Option Int × ReaderState :=
  BinaryReader.unpack s "q" 8

/-- `BinaryReader.seek(offset)`: `self.fp.seek(offset)` — moves the file
position to the absolute offset (past end-of-file is allowed) and returns
it; a negative offset raises `OSError` and leaves the position unchanged. -/
def BinaryReader.seek (s : ReaderState) (offset : Int) :
    Except String (Nat × ReaderState) :=
  if offset < 0 then .error "OSError: Invalid argument"
  else .ok (offset.toNat, { s with pos := offset.toNat })

/-- `BinaryReader.tell()`: `self.fp.tell()`. -/
def BinaryReader.tell (s : ReaderState) : Nat :=
  s.pos

/-- `BinaryReader.skip(number)`: `self.seek(self.tell() + number)`. -/
def BinaryReader.skip (s : ReaderState) (number : Int) :
    Except String (Nat × ReaderState) :=
  BinaryReader.seek s ((BinaryReader.tell s : Int) + number)

/-- `BinaryReader.align(number)`: computes
`(number - (self.tell() % number)) % number` padding and seeks forward by
it. Python `%` agrees with `Nat.mod` for a nonnegative offset and positive
modulus, the only regime the library's contract covers; `number = 0`
raises `ZeroDivisionError` as in Python. -/
def BinaryReader.align (s : ReaderState) (number : Nat) :
    Except String (Nat × ReaderState) :=
  if number = 0 then .error "ZeroDivisionError"
  else
    let offset := BinaryReader.tell s
    let a := (number - offset % number) % number
    BinaryReader.seek s ((offset : Int) + (a : Int))

/-- `BytesIO.write(bs)` at the current position: when the position is past
the end the gap is padded with null bytes, then the bytes overwrite the
buffer from the position on, extending it as needed; returns the count
written and advances the position by it. The OS gives a file descriptor
opened for writing the same semantics. -/
def writeBytes (s : WriterState) (bs : List Nat) : Nat × WriterState :=
  let padded := s.buf ++ List.replicate (s.pos - s.buf.length) 0
  let newBuf := padded.take s.pos ++ bs ++ padded.drop (s.pos + bs.length)
  (bs.length, { s with buf := newBuf, pos := s.pos + bs.length })

/-- `MemoryWriter.pack(type, number)`:
`self.write(pack(endian.value + type, number))`. The argument `pack(...)`
is evaluated first, so when `struct.error` is raised (`pk` is `none`)
nothing has been written and the state is returned unchanged. -/
def MemoryWriter.pack (s : WriterState) (type : String) (number : Int) :
    Option Nat × WriterState :=
  match pk s.endian type number with
  | none => (none, s)
  | some bs =>
    let r := writeBytes s bs
    (some r.1, r.2)

/-- `MemoryWriter.write_u8`: `self.pack("B", number)`. -/
def MemoryWriter.write_u8 (s : WriterState) (number : Int) :
    Option Nat × WriterState :=
  MemoryWriter.pack s "B" number

/-- `MemoryWriter.write_i8`: `self.pack("b", number)`. -/
def MemoryWriter.write_i8 (s : WriterState) (number : Int) :
    Option Nat × WriterState :=
  MemoryWriter.pack s "b" number

/-- `MemoryWriter.write_u16`: `self.pack("H", number)`. -/
def MemoryWriter.write_u16 (s : WriterState) (number : Int) :
    Option Nat × WriterState :=
  MemoryWriter.pack s "H" number

/-- `MemoryWriter.write_i16`: `self.pack("h", number)`. -/
def MemoryWriter.write_i16 (s : WriterState) (number : Int) :
    Option Nat × WriterState :=
  MemoryWriter.pack s "h" number

/-- `MemoryWriter.write_u32`: `self.pack("I", number)`. -/
def MemoryWriter.write_u32 (s : WriterState) (number : Int) :
    Option Nat × WriterState :=
  MemoryWriter.pack s "I" number

/-- `MemoryWriter.write_i32`: `self.pack("i", number)`. -/
def MemoryWriter.write_i32 (s : WriterState) (number : Int) :
    Option Nat × WriterState :=
  MemoryWriter.pack s "i" number

/-- `MemoryWriter.write_u64`: `self.pack("Q", number)`. -/
def MemoryWriter.write_u64 (s : WriterState) (number : Int) :
    Option Nat × WriterState :=
  MemoryWriter.pack s "Q" number

/-- `MemoryWriter.write_i64`: `self.pack("q", number)`. -/
def MemoryWriter.write_i64 (s : WriterState) (number : Int) :
    Option Nat × WriterState :=
  MemoryWriter.pack s "q" number

/-- The `MemoryWriter.bytes` property: `self.getvalue()` — the whole
accumulated buffer, independent of the current position. -/
def MemoryWriter.bytes (s : WriterState) : List Nat :=
  s.buf

/-- `BytesIO.seek(offset)` as inherited by `MemoryWriter`: absolute
positioning, past-the-end allowed; a negative offset raises `ValueError`
and leaves the state unchanged. -/
def MemoryWriter.seek (s : WriterState) (offset : Int) :
    Except String (Nat × WriterState) :=
  if offset < 0 then .error "ValueError: negative seek value"
  else .ok (offset.toNat, { s with pos := offset.toNat })

/-- `BytesIO.tell()` as inherited by `MemoryWriter`. -/
def MemoryWriter.tell (s : WriterState) : Nat :=
  s.pos

/-- `MemoryWriter.skip(number)`: `self.seek(self.tell() + number)`. -/
def MemoryWriter.skip (s : WriterState) (number : Int) :
    Except String (Nat × WriterState) :=
  MemoryWriter.seek s ((MemoryWriter.tell s : Int) + number)

/-- `MemoryWriter.align(number)`: same computation as
`BinaryReader.align`, against the `BytesIO` position. -/
def MemoryWriter.align (s : WriterState) (number : Nat) :
    Except String (Nat × WriterState) :=
  if number = 0 then .error "ZeroDivisionError"
  else
    let offset := MemoryWriter.tell s
    let a := (number - offset % number) % number
    MemoryWriter.seek s ((offset : Int) + (a : Int))

/-- `str.encode("ASCII")`: succeeds with the code points as bytes when all
characters are below 128, otherwise raises `UnicodeEncodeError`. -/
def encodeAscii (string : String) : Option (List Nat) :=
  if string.data.all (fun c => c.toNat < 128) then
    some (string.data.map Char.toNat)
  else none

/-- `bytes.decode("ASCII")`: succeeds when every byte is below 128. -/
def decodeAscii (bs : List Nat) : Option String :=
  if bs.all (fun b => b < 128) then
    some (String.mk (bs.map Char.ofNat))
  else none

/-- `MemoryWriter.write_ascii_str(string)`:
`self.write(string.encode("ASCII"))`. -/
def MemoryWriter.write_ascii_str (s : WriterState) (string : String) :
    Except String (Nat × WriterState) :=
  match encodeAscii string with
  | none => .error "UnicodeEncodeError"
  | some bs => .ok (writeBytes s bs)

/-- Method table for the one-byte write methods class `MemoryWriter`
actually defines: dynamic lookup of `self.<name>` for a write method.
The class defines `write_u8` … `write_i64`; there is no `write_ubyte`. -/
def MemoryWriter.getMethod :
    String → Option (WriterState → Int → Option Nat × WriterState)
  | "write_u8" => some MemoryWriter.write_u8
  | "write_i8" => some MemoryWriter.write_i8
  | "write_u16" => some MemoryWriter.write_u16
  | "write_i16" => some MemoryWriter.write_i16
  | "write_u32" => some MemoryWriter.write_u32
  | "write_i32" => some MemoryWriter.write_i32
  | "write_u64" => some MemoryWriter.write_u64
  | "write_i64" => some MemoryWriter.write_i64
  | _ => none

/-- `MemoryWriter.write_ascii_nt_str(string, nt)`:
`self.write_ascii_str(string) + self.write_ubyte(nt)`. Python evaluates
the left operand first, writing the encoded text, then looks up
`self.write_ubyte` — an attribute the class does not define (its one-byte
writer is named `write_u8`), so an `AttributeError` is raised after the
text bytes have already gone into the buffer. -/
def MemoryWriter.write_ascii_nt_str (s : WriterState) (string : String)
    (nt : Int) : Except String (Nat × WriterState) :=
  match MemoryWriter.write_ascii_str s string with
  | .error e => .error e
  | .ok (n1, s1) =>
    match MemoryWriter.getMethod "write_ubyte" with
    | none => .error "AttributeError: write_ubyte"
    | some f =>
      match f s1 nt with
      | (none, _) => .error "struct.error"
      | (some n2, s2) => .ok (n1 + n2, s2)

/-- Method table for the integer read methods class `BinaryReader`
actually defines: dynamic lookup of `self.<name>` for a read method.
The class defines `read_u8` … `read_i64`; there is no `read_ubyte`. -/
def BinaryReader.getMethod :
    String → Option (ReaderState → Option Int × ReaderState)
  | "read_u8" => some BinaryReader.read_u8
  | "read_i8" => some BinaryReader.read_i8
  | "read_u16" => some BinaryReader.read_u16
  | "read_i16" => some BinaryReader.read_i16
  | "read_u32" => some BinaryReader.read_u32
  | "read_i32" => some BinaryReader.read_i32
  | "read_u64" => some BinaryReader.read_u64
  | "read_i64" => some BinaryReader.read_i64
  | _ => none

/-- The loop `while (byte := f()) != nt: byte_array.append(byte)` of the
null-terminated readers, with fuel bounding the iteration count; `f` is
the one-byte read method the source looks up by name. A failed struct
decode (reading at end-of-file) surfaces as `struct.error`. -/
def ntReadLoop (f : ReaderState → Option Int × ReaderState) (nt : Nat) :
    Nat → ReaderState → Except String (List Nat × ReaderState)
  | 0, _ => .error "fuel exhausted"
  | fuel + 1, s =>
    match f s with
    | (none, _) => .error "struct.error"
    | (some b, s2) =>
      if b = (nt : Int) then .ok ([], s2)
      else
        match ntReadLoop f nt fuel s2 with
        | .error e => .error e
        | .ok (bs, s3) => .ok (b.toNat :: bs, s3)

/-- `BinaryReader.read_ascii_nt_str(nt)`: loops on `self.read_ubyte()`
until the terminator, then decodes the collected bytes as ASCII. The very
first step is the attribute lookup `self.read_ubyte` — a name the class
does not define (its one-byte reader is named `read_u8`), so the call
raises `AttributeError` before reading anything. -/
def BinaryReader.read_ascii_nt_str (s : ReaderState) (nt : Nat) :
    Except String (String × ReaderState) :=
  match BinaryReader.getMethod "read_ubyte" with
  | none => .error "AttributeError: read_ubyte"
  | some f =>
    match ntReadLoop f nt (s.buf.length + 1) s with
    | .error e => .error e
    | .ok (bs, s2) =>
      match decodeAscii bs with
      | none => .error "UnicodeDecodeError"
      | some string => .ok (string, s2)

/-- `BinaryWriter.write(buffer)`: `self.fp.write(buffer)` on a file opened
with mode `"wb"`; same overwrite-or-extend-at-position semantics. -/
def BinaryWriter.write (s : WriterState) (buffer : List Nat) :
    Nat × WriterState :=
  writeBytes s buffer

/-- `BinaryWriter.pack(type, number)`:
`self.write(pack(endian.value + type, number))`; as for `MemoryWriter`,
`struct.error` propagates before anything is written. -/
def BinaryWriter.pack (s : WriterState) (type : String) (number : Int) :
    Option Nat × WriterState :=
  match pk s.endian type number with
  | none => (none, s)
  | some bs =>
    let r := BinaryWriter.write s bs
    (some r.1, r.2)

/-- The attribute names bound on a `BinaryWriter` instance: the methods of
its class body plus the `__enter__`/`__exit__` protocol and the `fp`,
`file_path`, `endian` fields. Its bases (`AbstractContextManager`,
`object`) contribute no `seek` or `tell`; the class body defines `skip`
and `align`, which call `self.seek` and `self.tell`, but never defines
either of those two names. -/
def BinaryWriter.attrNames : List String :=
  ["endian", "file_path", "fp", "__init__", "__enter__", "__exit__",
   "open", "close", "write", "pack",
   "write_u8", "write_i8", "write_u16", "write_i16",
   "write_u32", "write_i32", "write_u64", "write_i64",
   "write_utf8_str", "write_utf8_nt_str",
   "write_ascii_str", "write_ascii_nt_str",
   "align", "skip"]

/-- The attribute lookup `self.tell` on a `BinaryWriter`, then the call:
the name is missing from the class, so `AttributeError` is raised (were it
present it would report the file position). -/
def BinaryWriter.tell (s : WriterState) : Except String Nat :=
  if BinaryWriter.attrNames.contains "tell" then .ok s.pos
  else .error "AttributeError: tell"

/-- The attribute lookup `self.seek` on a `BinaryWriter`, then the call:
the name is missing from the class, so `AttributeError` is raised (were it
present it would move the file position). -/
def BinaryWriter.seek (s : WriterState) (offset : Int) :
    Except String (Nat × WriterState) :=
  if BinaryWriter.attrNames.contains "seek" then
    if offset < 0 then .error "OSError: Invalid argument"
    else .ok (offset.toNat, { s with pos := offset.toNat })
  else .error "AttributeError: seek"

/-- `BinaryWriter.skip(number)`: `self.seek(self.tell() + number)` — the
`self.tell` lookup raises `AttributeError` first. -/
def BinaryWriter.skip (s : WriterState) (number : Int) :
    Except String (Nat × WriterState) :=
  match BinaryWriter.tell s with
  | .error e => .error e
  | .ok p => BinaryWriter.seek s ((p : Int) + number)

/-- `BinaryWriter.align(number)`: the same padding computation as the
Reader, but its first step `self.tell()` raises `AttributeError`. -/
def BinaryWriter.align (s : WriterState) (number : Nat) :
    Except String (Nat × WriterState) :=
  match BinaryWriter.tell s with
  | .error e => .error e
  | .ok offset =>
    if number = 0 then .error "ZeroDivisionError"
    else
      let a := (number - offset % number) % number
      BinaryWriter.seek s ((offset : Int) + (a : Int))

/-- The byte decomposition always has exactly the requested width. -/
theorem natToBytesLE_length (w v : Nat) : (natToBytesLE w v).length = w := by
  induction w generalizing v with
  | zero => rfl
  | succ w ih => simp [natToBytesLE, ih]

/-- Reordering by the endian tag preserves the byte count. -/
theorem applyEndian_length (e : BinaryEndian) (bs : List Nat) :
    (applyEndian e bs).length = bs.length := by
  cases e <;> simp [applyEndian]

/-- Applying the same endian reordering twice is the identity. -/
theorem applyEndian_applyEndian (e : BinaryEndian) (bs : List Nat) :
    applyEndian e (applyEndian e bs) = bs := by
  cases e <;> simp [applyEndian]

/-- Decomposing a value below `2 ^ (8 w)` into `w` little-endian bytes and
recomposing them gives the value back. -/
theorem bytesToNatLE_natToBytesLE (w v : Nat) (h : v < 2 ^ (8 * w)) :
    bytesToNatLE (natToBytesLE w v) = v := by
  induction w generalizing v with
  | zero =>
    simp only [natToBytesLE, bytesToNatLE]
    simp only [Nat.mul_zero, pow_zero] at h
    omega
  | succ w ih =>
    have hsplit : 2 ^ (8 * (w + 1)) = 2 ^ (8 * w) * 256 := by
      rw [show 8 * (w + 1) = 8 * w + 8 by ring, pow_add]
      norm_num
    have hdiv : v / 256 < 2 ^ (8 * w) := by
      rw [hsplit] at h
      omega
    simp only [natToBytesLE, bytesToNatLE, ih _ hdiv]
    omega

/-- Any byte list produced by `pk` has exactly the format's width. -/
theorem pk_length (e : BinaryEndian) (type : String) (w : Nat) (signed : Bool)
    (ht : structInfo type = some (w, signed)) (v : Int) (bs : List Nat)
    (hbs : pk e type v = some bs) : bs.length = w := by
  simp only [pk, ht] at hbs
  cases signed with
  | false =>
    simp only [Bool.false_eq_true, if_false] at hbs
    split at hbs
    · injection hbs with hbs
      subst hbs
      rw [applyEndian_length, natToBytesLE_length]
    · exact absurd hbs (by simp)
  | true =>
    simp only [if_true] at hbs
    split at hbs
    · injection hbs with hbs
      subst hbs
      rw [applyEndian_length, natToBytesLE_length]
    · exact absurd hbs (by simp)

/-- Unpacking the bytes packed from a representable value recovers the
value: `struct.unpack(fmt, struct.pack(fmt, v))[0] == v` for every format
the source uses and both byte orders. -/
theorem up_pk (e : BinaryEndian) (type : String) (w : Nat) (signed : Bool)
    (hw : 0 < w) (ht : structInfo type = some (w, signed)) (v : Int)
    (bs : List Nat) (hbs : pk e type v = some bs) :
    up e type bs = some v := by
  have hlen := pk_length e type w signed ht v bs hbs
  simp only [pk, ht] at hbs
  simp only [up, ht]
  rw [if_pos hlen]
  cases signed with
  | false =>
    simp only [Bool.false_eq_true, if_false] at hbs ⊢
    split at hbs
    case isTrue hc =>
      injection hbs with hbs
      subst hbs
      have hvN : v.toNat < 2 ^ (8 * w) := by
        have : v < ((2 ^ (8 * w) : Nat) : Int) := by
          push_cast
          exact hc.2
        omega
      rw [applyEndian_applyEndian, bytesToNatLE_natToBytesLE w v.toNat hvN]
      have := hc.1
      congr 1
      omega
    case isFalse => exact absurd hbs (by simp)
  | true =>
    simp only [if_true] at hbs ⊢
    split at hbs
    case isTrue hc =>
      injection hbs with hbs
      subst hbs
      obtain ⟨hlo, hhi⟩ := hc
      have hNsplit : (2 : Int) ^ (8 * w) = 2 * 2 ^ (8 * w - 1) := by
        have h8 : 8 * w - 1 + 1 = 8 * w := by omega
        calc (2 : Int) ^ (8 * w) = 2 ^ (8 * w - 1 + 1) := by rw [h8]
          _ = 2 ^ (8 * w - 1) * 2 := pow_succ 2 (8 * w - 1)
          _ = 2 * 2 ^ (8 * w - 1) := by ring
      have hMpos : (0 : Int) < 2 ^ (8 * w - 1) := by positivity
      have hNpos : (0 : Int) < 2 ^ (8 * w) := by positivity
      have hcast : (((2 : Nat) ^ (8 * w - 1) : Nat) : Int) = (2 : Int) ^ (8 * w - 1) := by
        push_cast
        ring
      have hcastN : (((2 : Nat) ^ (8 * w) : Nat) : Int) = (2 : Int) ^ (8 * w) := by
        push_cast
        ring
      have h1 : 0 ≤ v % ((2 : Int) ^ (8 * w)) := Int.emod_nonneg v (by omega)
      have h2 : v % ((2 : Int) ^ (8 * w)) < 2 ^ (8 * w) :=
        Int.emod_lt_of_pos v hNpos
      have huN : (v % ((2 : Int) ^ (8 * w))).toNat < 2 ^ (8 * w) := by
        omega
      rw [applyEndian_applyEndian,
        bytesToNatLE_natToBytesLE w (v % ((2 : Int) ^ (8 * w))).toNat huN]
      rcases le_or_lt 0 v with hpos | hneg
      · have hmod : v % ((2 : Int) ^ (8 * w)) = v :=
          Int.emod_eq_of_lt hpos (by omega)
        rw [hmod, if_pos (by omega)]
        congr 1
        omega
      · have hmod : v % ((2 : Int) ^ (8 * w)) = v + 2 ^ (8 * w) := by
          have hself : (v + (2 : Int) ^ (8 * w) * 1) % ((2 : Int) ^ (8 * w)) =
              v % ((2 : Int) ^ (8 * w)) :=
            Int.add_mul_emod_self_left v ((2 : Int) ^ (8 * w)) 1
          rw [mul_one] at hself
          rw [← hself]
          exact Int.emod_eq_of_lt (by omega) (by omega)
        rw [hmod, if_neg (by omega)]
        congr 1
        omega
    case isFalse => exact absurd hbs (by simp)

/-- Writing into a fresh `MemoryWriter` leaves exactly the written bytes
in the buffer, with the cursor after them. -/
theorem writeBytes_fresh (e : BinaryEndian) (bs : List Nat) :
    writeBytes (freshWriter e) bs = (bs.length, ⟨e, bs, bs.length⟩) := by
  simp [writeBytes, freshWriter]

/-- A typed write of a representable value on a fresh `MemoryWriter`
succeeds and the snapshot holds exactly the packed bytes; reading those
bytes back with the matching typed read under the same endianness recovers
the value. This is the round trip of one `pack`-then-`unpack` pair. -/
theorem roundtrip_core (e : BinaryEndian) (type : String) (w : Nat)
    (signed : Bool) (hw : 0 < w) (ht : structInfo type = some (w, signed))
    (v : Int) (bs : List Nat) (hbs : pk e type v = some bs) :
    (BinaryReader.unpack
      (readerOver e
        (MemoryWriter.bytes (MemoryWriter.pack (freshWriter e) type v).2))
      type w).1 = some v := by
  have hlen := pk_length e type w signed ht v bs hbs
  have hpack : MemoryWriter.pack (freshWriter e) type v =
      (some bs.length, ⟨e, bs, bs.length⟩) := by
    have hend : (freshWriter e).endian = e := rfl
    simp only [MemoryWriter.pack, hend, hbs, writeBytes_fresh]
  rw [hpack]
  have hbytes : MemoryWriter.bytes (⟨e, bs, bs.length⟩ : WriterState) = bs := rfl
  rw [hbytes]
  unfold BinaryReader.unpack BinaryReader.read readerOver
  simp only [List.drop_zero]
  rw [List.take_of_length_le (le_of_eq hlen)]
  exact up_pk e type w signed hw ht v bs hbs

/-- A representable value is accepted by `pk`: existence half of the
round trip, with the range condition matching the format's signedness. -/
theorem pk_some (e : BinaryEndian) (type : String) (w : Nat) (signed : Bool)
    (ht : structInfo type = some (w, signed)) (v : Int)
    (hv : if signed then
        -(2 ^ (8 * w - 1) : Int) ≤ v ∧ v < (2 ^ (8 * w - 1) : Int)
      else 0 ≤ v ∧ v < (2 ^ (8 * w) : Int)) :
    ∃ bs, pk e type v = some bs := by
  simp only [pk, ht]
  cases signed with
  | false =>
    simp only [Bool.false_eq_true, if_false] at hv ⊢
    exact ⟨_, by rw [if_pos hv]⟩
  | true =>
    simp only [if_true] at hv ⊢
    exact ⟨_, by rw [if_pos hv]⟩

/-- Representable values round-trip through a fresh memory writer and a
reader over its snapshot, for any of the source's format strings. -/
theorem roundtrip_of_fits (e : BinaryEndian) (type : String) (w : Nat)
    (signed : Bool) (hw : 0 < w) (ht : structInfo type = some (w, signed))
    (v : Int)
    (hv : if signed then
        -(2 ^ (8 * w - 1) : Int) ≤ v ∧ v < (2 ^ (8 * w - 1) : Int)
      else 0 ≤ v ∧ v < (2 ^ (8 * w) : Int)) :
    (BinaryReader.unpack
      (readerOver e
        (MemoryWriter.bytes (MemoryWriter.pack (freshWriter e) type v).2))
      type w).1 = some v := by
  obtain ⟨bs, hbs⟩ := pk_some e type w signed ht v hv
  exact roundtrip_core e type w signed hw ht v bs hbs

/-- C1: for every supported width (8/16/32/64 bits), both signedness
variants and both endianness values, writing any representable value
(minimum and maximum included) with the typed write
`write_u8/i8/u16/i16/u32/i32/u64/i64` of a fresh `MemoryWriter` and
reading the produced bytes back with the matching typed read
`read_u8/i8/u16/i16/u32/i32/u64/i64` of a reader with the same endianness
yields the original value exactly. -/
theorem typed_write_read_roundtrip (e : BinaryEndian) :
    (∀ v : Int, 0 ≤ v → v < 2 ^ 8 →
      (BinaryReader.read_u8 (readerOver e
        (MemoryWriter.bytes (MemoryWriter.write_u8 (freshWriter e) v).2))).1
        = some v) ∧
    (∀ v : Int, -(2 ^ 7) ≤ v → v < 2 ^ 7 →
      (BinaryReader.read_i8 (readerOver e
        (MemoryWriter.bytes (MemoryWriter.write_i8 (freshWriter e) v).2))).1
        = some v) ∧
    (∀ v : Int, 0 ≤ v → v < 2 ^ 16 →
      (BinaryReader.read_u16 (readerOver e
        (MemoryWriter.bytes (MemoryWriter.write_u16 (freshWriter e) v).2))).1
        = some v) ∧
    (∀ v : Int, -(2 ^ 15) ≤ v → v < 2 ^ 15 →
      (BinaryReader.read_i16 (readerOver e
        (MemoryWriter.bytes (MemoryWriter.write_i16 (freshWriter e) v).2))).1
        = some v) ∧
    (∀ v : Int, 0 ≤ v → v < 2 ^ 32 →
      (BinaryReader.read_u32 (readerOver e
        (MemoryWriter.bytes (MemoryWriter.write_u32 (freshWriter e) v).2))).1
        = some v) ∧
    (∀ v : Int, -(2 ^ 31) ≤ v → v < 2 ^ 31 →
      (BinaryReader.read_i32 (readerOver e
        (MemoryWriter.bytes (MemoryWriter.write_i32 (freshWriter e) v).2))).1
        = some v) ∧
    (∀ v : Int, 0 ≤ v → v < 2 ^ 64 →
      (BinaryReader.read_u64 (readerOver e
        (MemoryWriter.bytes (MemoryWriter.write_u64 (freshWriter e) v).2))).1
        = some v) ∧
    (∀ v : Int, -(2 ^ 63) ≤ v → v < 2 ^ 63 →
      (BinaryReader.read_i64 (readerOver e
        (MemoryWriter.bytes (MemoryWriter.write_i64 (freshWriter e) v).2))).1
        = some v) := by
  refine ⟨?_, ?_, ?_, ?_, ?_, ?_, ?_, ?_⟩ <;> intro v h1 h2
  · exact roundtrip_of_fits e "B" 1 false (by norm_num) rfl v ⟨h1, by norm_num at h2 ⊢; exact h2⟩
  · exact roundtrip_of_fits e "b" 1 true (by norm_num) rfl v ⟨by norm_num at h1 ⊢; exact h1, by norm_num at h2 ⊢; exact h2⟩
  · exact roundtrip_of_fits e "H" 2 false (by norm_num) rfl v ⟨h1, by norm_num at h2 ⊢; exact h2⟩
  · exact roundtrip_of_fits e "h" 2 true (by norm_num) rfl v ⟨by norm_num at h1 ⊢; exact h1, by norm_num at h2 ⊢; exact h2⟩
  · exact roundtrip_of_fits e "I" 4 false (by norm_num) rfl v ⟨h1, by norm_num at h2 ⊢; exact h2⟩
  · exact roundtrip_of_fits e "i" 4 true (by norm_num) rfl v ⟨by norm_num at h1 ⊢; exact h1, by norm_num at h2 ⊢; exact h2⟩
  · exact roundtrip_of_fits e "Q" 8 false (by norm_num) rfl v ⟨h1, by norm_num at h2 ⊢; exact h2⟩
  · exact roundtrip_of_fits e "q" 8 true (by norm_num) rfl v ⟨by norm_num at h1 ⊢; exact h1, by norm_num at h2 ⊢; exact h2⟩

/-- Witness for C1 at a concrete instance: the unsigned byte 255 (the
maximum of the u8 range) written and read back under LITTLE endianness. -/
theorem typed_write_read_roundtrip_witness :
    (BinaryReader.read_u8 (readerOver BinaryEndian.LITTLE
      (MemoryWriter.bytes
        (MemoryWriter.write_u8 (freshWriter BinaryEndian.LITTLE) 255).2))).1
      = some 255 :=
  (typed_write_read_roundtrip BinaryEndian.LITTLE).1 255 (by norm_num) (by norm_num)

/-- The padding the align formula adds lands on a multiple of the modulus
and is itself smaller than the modulus. -/
theorem align_arith (p n : Nat) (hn : 0 < n) :
    (p + (n - p % n) % n) % n = 0 ∧ (n - p % n) % n < n := by
  refine ⟨?_, Nat.mod_lt _ hn⟩
  have hr : p % n < n := Nat.mod_lt p hn
  rcases Nat.eq_zero_or_pos (p % n) with h0 | hpos
  · rw [h0, Nat.sub_zero, Nat.mod_self, Nat.add_zero]
    exact h0
  · have hlt : n - p % n < n := by omega
    rw [Nat.mod_eq_of_lt hlt]
    calc (p + (n - p % n)) % n
        = (p % n + (n - p % n) % n) % n := by rw [Nat.add_mod]
      _ = (p % n + (n - p % n)) % n := by rw [Nat.mod_eq_of_lt hlt]
      _ = n % n := by rw [show p % n + (n - p % n) = n by omega]
      _ = 0 := Nat.mod_self n

/-- For a positive modulus, `BinaryReader.align` always succeeds, moving
the cursor forward by the padding amount of the source's formula. -/
theorem BinaryReader_align_eq (s : ReaderState) (n : Nat) (hn : 0 < n) :
    BinaryReader.align s n =
      Except.ok (s.pos + (n - s.pos % n) % n,
        { s with pos := s.pos + (n - s.pos % n) % n }) := by
  simp only [BinaryReader.align, BinaryReader.seek, BinaryReader.tell]
  rw [if_neg (by omega : ¬ n = 0)]
  rw [if_neg (by omega : ¬ ((s.pos : Int) + (((n - s.pos % n) % n : Nat) : Int) < 0))]
  simp only [← Nat.cast_add, Int.toNat_natCast]

/-- For a positive modulus, `MemoryWriter.align` always succeeds, moving
the cursor forward by the padding amount of the source's formula. -/
theorem MemoryWriter_align_eq (s : WriterState) (n : Nat) (hn : 0 < n) :
    MemoryWriter.align s n =
      Except.ok (s.pos + (n - s.pos % n) % n,
        { s with pos := s.pos + (n - s.pos % n) % n }) := by
  simp only [MemoryWriter.align, MemoryWriter.seek, MemoryWriter.tell]
  rw [if_neg (by omega : ¬ n = 0)]
  rw [if_neg (by omega : ¬ ((s.pos : Int) + (((n - s.pos % n) % n : Nat) : Int) < 0))]
  simp only [← Nat.cast_add, Int.toNat_natCast]

/-- C6: for every cursor position and every alignment `n > 0`, `align(n)`
(on the reader and on the memory writer alike) succeeds and the new cursor
`q` satisfies `q % n = 0` and `q - p = (n - p % n) % n` with
`p ≤ q` and `q - p < n`: align never moves the cursor backward. -/
theorem align_correctness (n : Nat) (hn : 0 < n) (sr : ReaderState)
    (sw : WriterState) :
    (BinaryReader.align sr n =
        Except.ok (sr.pos + (n - sr.pos % n) % n,
          { sr with pos := sr.pos + (n - sr.pos % n) % n }) ∧
      (sr.pos + (n - sr.pos % n) % n) % n = 0 ∧
      (sr.pos + (n - sr.pos % n) % n) - sr.pos = (n - sr.pos % n) % n ∧
      sr.pos ≤ sr.pos + (n - sr.pos % n) % n ∧
      (sr.pos + (n - sr.pos % n) % n) - sr.pos < n) ∧
    (MemoryWriter.align sw n =
        Except.ok (sw.pos + (n - sw.pos % n) % n,
          { sw with pos := sw.pos + (n - sw.pos % n) % n }) ∧
      (sw.pos + (n - sw.pos % n) % n) % n = 0 ∧
      (sw.pos + (n - sw.pos % n) % n) - sw.pos = (n - sw.pos % n) % n ∧
      sw.pos ≤ sw.pos + (n - sw.pos % n) % n ∧
      (sw.pos + (n - sw.pos % n) % n) - sw.pos < n) := by
  have hr := align_arith sr.pos n hn
  have hw := align_arith sw.pos n hn
  exact ⟨⟨BinaryReader_align_eq sr n hn, hr.1, by omega, by omega, by omega⟩,
    ⟨MemoryWriter_align_eq sw n hn, hw.1, by omega, by omega, by omega⟩⟩

/-- Witness for C6 at concrete inputs: a reader at offset 1 aligned to 4
lands at 4; a memory writer at offset 6 aligned to 4 lands at 8. -/
theorem align_correctness_witness :
    (BinaryReader.align ⟨BinaryEndian.LITTLE, [0x61, 0x62, 0x63], 1⟩ 4 =
        Except.ok (4, ⟨BinaryEndian.LITTLE, [0x61, 0x62, 0x63], 4⟩) ∧
      (4 : Nat) % 4 = 0 ∧ (4 : Nat) - 1 = (4 - 1 % 4) % 4 ∧
      (1 : Nat) ≤ 4 ∧ (4 : Nat) - 1 < 4) ∧
    (MemoryWriter.align ⟨BinaryEndian.LITTLE, [], 6⟩ 4 =
        Except.ok (8, ⟨BinaryEndian.LITTLE, [], 8⟩) ∧
      (8 : Nat) % 4 = 0 ∧ (8 : Nat) - 6 = (4 - 6 % 4) % 4 ∧
      (6 : Nat) ≤ 8 ∧ (8 : Nat) - 6 < 4) :=
  align_correctness 4 (by decide) ⟨BinaryEndian.LITTLE, [0x61, 0x62, 0x63], 1⟩
    ⟨BinaryEndian.LITTLE, [], 6⟩

/-- C7: for every `n > 0` and every cursor position, `align(n)` twice in
succession leaves the cursor exactly where one call leaves it — the second
call is a no-op on an already aligned cursor — on the reader and on the
memory writer alike. -/
theorem align_idempotent (n : Nat) (hn : 0 < n) (sr : ReaderState)
    (sw : WriterState) :
    ((BinaryReader.align sr n).bind (fun r => BinaryReader.align r.2 n) =
      BinaryReader.align sr n) ∧
    ((MemoryWriter.align sw n).bind (fun r => MemoryWriter.align r.2 n) =
      MemoryWriter.align sw n) := by
  have hr := align_arith sr.pos n hn
  have hw := align_arith sw.pos n hn
  constructor
  · rw [BinaryReader_align_eq sr n hn]
    simp only [Except.bind]
    rw [BinaryReader_align_eq _ n hn]
    simp only [hr.1, Nat.sub_zero, Nat.mod_self, Nat.add_zero]
  · rw [MemoryWriter_align_eq sw n hn]
    simp only [Except.bind]
    rw [MemoryWriter_align_eq _ n hn]
    simp only [hw.1, Nat.sub_zero, Nat.mod_self, Nat.add_zero]

/-- Witness for C7 at a concrete input: aligning a reader at offset 3 and
a writer at offset 5 to 8, twice, equals aligning once. -/
theorem align_idempotent_witness :
    ((BinaryReader.align ⟨BinaryEndian.BIG, [], 3⟩ 8).bind
        (fun r => BinaryReader.align r.2 8) =
      BinaryReader.align ⟨BinaryEndian.BIG, [], 3⟩ 8) ∧
    ((MemoryWriter.align ⟨BinaryEndian.BIG, [], 5⟩ 8).bind
        (fun r => MemoryWriter.align r.2 8) =
      MemoryWriter.align ⟨BinaryEndian.BIG, [], 5⟩ 8) :=
  align_idempotent 8 (by decide) ⟨BinaryEndian.BIG, [], 3⟩ ⟨BinaryEndian.BIG, [], 5⟩

/-- C5: writing the u32 value 0x12345678 on a fresh memory writer emits
exactly the bytes 78 56 34 12 under LITTLE endianness and exactly
12 34 56 78 under BIG endianness. -/
theorem write_u32_endian_bytes :
    MemoryWriter.bytes
        (MemoryWriter.write_u32 (freshWriter BinaryEndian.LITTLE) 0x12345678).2 =
      [0x78, 0x56, 0x34, 0x12] ∧
    MemoryWriter.bytes
        (MemoryWriter.write_u32 (freshWriter BinaryEndian.BIG) 0x12345678).2 =
      [0x12, 0x34, 0x56, 0x78] := by
  constructor <;> rfl

/-- C8: a fresh LITTLE-endian memory writer, after `write_u8(1)` then
`write_u16(2)`, snapshots exactly the bytes 01 02 00; and the `bytes`
snapshot is independent of the cursor position and leaves the state
untouched (it is a pure read of the accumulated buffer). -/
theorem memorywriter_snapshot :
    MemoryWriter.bytes
        (MemoryWriter.write_u16
          (MemoryWriter.write_u8 (freshWriter BinaryEndian.LITTLE) 1).2 2).2 =
      [0x01, 0x02, 0x00] ∧
    (∀ (s : WriterState) (p : Nat),
      MemoryWriter.bytes { s with pos := p } = MemoryWriter.bytes s) := by
  exact ⟨rfl, fun s p => rfl⟩

/-- C4 counterexample: on a medium holding only the two bytes 61 62,
`read(5)` returns the two remaining bytes — a shorter sequence, not an
end-of-data error (the model's `read`, like `file.read`, cannot fail). -/
theorem read_short_no_error :
    BinaryReader.read (readerOver BinaryEndian.LITTLE [0x61, 0x62]) 5 =
      ([0x61, 0x62], ⟨BinaryEndian.LITTLE, [0x61, 0x62], 2⟩) ∧
    (BinaryReader.read (readerOver BinaryEndian.LITTLE [0x61, 0x62]) 5).1.length ≠ 5 := by
  exact ⟨rfl, by decide⟩

/-- C4 amended: `read(n)` returns the next `min(n, remaining)` bytes and
advances the cursor by the number returned; when at least `n` bytes remain
it returns exactly `n`, when fewer remain it returns the shorter remainder
with no error, and the end-of-data condition only surfaces as a failure
of the typed decode (`unpack` yields no value on a short buffer). -/
theorem read_returns_available (s : ReaderState) (n : Nat) :
    (BinaryReader.read s n).1 = (s.buf.drop s.pos).take n ∧
    (BinaryReader.read s n).2.pos = s.pos + (BinaryReader.read s n).1.length ∧
    (BinaryReader.read s n).2.buf = s.buf ∧
    (n ≤ s.buf.length - s.pos → (BinaryReader.read s n).1.length = n) ∧
    (s.buf.length - s.pos < n →
      (BinaryReader.read s n).1.length = s.buf.length - s.pos) ∧
    (∀ (t : String) (w : Nat) (sg : Bool), structInfo t = some (w, sg) →
      s.buf.length - s.pos < w → (BinaryReader.unpack s t w).1 = none) := by
  have hlen : (BinaryReader.read s n).1.length = min n (s.buf.length - s.pos) := by
    simp [BinaryReader.read]
  refine ⟨rfl, rfl, rfl, ?_, ?_, ?_⟩
  · intro h
    omega
  · intro h
    omega
  · intro t w sg ht h
    have hlenw : (BinaryReader.read s w).1.length = min w (s.buf.length - s.pos) := by
      simp [BinaryReader.read]
    simp only [BinaryReader.unpack, up, ht]
    rw [if_neg (by omega)]

/-- Witness for C4 amended at a concrete input: over the two bytes 61 62,
a 4-byte typed decode (`unpack("I", 4)`, as `read_u32` issues) yields no
value. -/
theorem read_returns_available_witness :
    (BinaryReader.unpack (readerOver BinaryEndian.LITTLE [0x61, 0x62]) "I" 4).1 = none :=
  (read_returns_available (readerOver BinaryEndian.LITTLE [0x61, 0x62]) 4).2.2.2.2.2
    "I" 4 false rfl (by decide)

/-- C9 counterexample: on a fresh memory writer (size 0), `skip(5)`
succeeds and leaves the cursor at 5 — strictly greater than the size of
the medium, refuting "cursor ≤ current size of the underlying medium". -/
theorem skip_exceeds_size :
    MemoryWriter.skip (freshWriter BinaryEndian.LITTLE) 5 =
      Except.ok (5, ⟨BinaryEndian.LITTLE, [], 5⟩) ∧
    (⟨BinaryEndian.LITTLE, [], 5⟩ : WriterState).buf.length <
      (⟨BinaryEndian.LITTLE, [], 5⟩ : WriterState).pos := by
  exact ⟨rfl, by decide⟩

/-- C9 amended: the cursor can never become negative — a seek to a
negative offset fails on reader and writer alike, leaving the state
unchanged — but it may exceed the current size of the medium (seeks past
the end succeed); a write at the cursor extends the medium to
`max (old size) (cursor + count)`, so writes beyond the current end grow
it (null-padding any gap) and after a write the cursor is within the
medium again. -/
theorem cursor_amended :
    (∀ (s : ReaderState) (off : Int), off < 0 →
      BinaryReader.seek s off = .error "OSError: Invalid argument") ∧
    (∀ (s : WriterState) (off : Int), off < 0 →
      MemoryWriter.seek s off = .error "ValueError: negative seek value") ∧
    (∀ (s : WriterState) (bs : List Nat),
      (writeBytes s bs).2.buf.length = max s.buf.length (s.pos + bs.length) ∧
      s.buf.length ≤ (writeBytes s bs).2.buf.length ∧
      (writeBytes s bs).2.pos ≤ (writeBytes s bs).2.buf.length) := by
  refine ⟨?_, ?_, ?_⟩
  · intro s off h
    simp only [BinaryReader.seek, if_pos h]
  · intro s off h
    simp only [MemoryWriter.seek, if_pos h]
  · intro s bs
    have hl : (writeBytes s bs).2.buf.length =
        max s.buf.length (s.pos + bs.length) := by
      simp [writeBytes]
      omega
    have hp : (writeBytes s bs).2.pos = s.pos + bs.length := rfl
    refine ⟨hl, by omega, by omega⟩

/-- Witness for C9 amended at a concrete input: seeking a reader to -1
raises, and a write of three bytes at cursor 5 over an empty buffer grows
the medium to length 8. -/
theorem cursor_amended_witness :
    BinaryReader.seek (readerOver BinaryEndian.LITTLE []) (-1) =
      .error "OSError: Invalid argument" :=
  cursor_amended.1 (readerOver BinaryEndian.LITTLE []) (-1) (by decide)

/-- C10: a typed numeric write of a value outside the representable range
of the format (negative for unsigned, or beyond the width's bounds)
raises `struct.error` inside `pack(...)` before `write` runs, so neither
the buffer nor the cursor changes — on the memory writer and the file
writer alike the failed write is atomic. -/
theorem pack_out_of_range_atomic (type : String) (w : Nat) (signed : Bool)
    (ht : structInfo type = some (w, signed)) (v : Int)
    (hv : ¬ (if signed then
        -(2 ^ (8 * w - 1) : Int) ≤ v ∧ v < (2 ^ (8 * w - 1) : Int)
      else 0 ≤ v ∧ v < (2 ^ (8 * w) : Int))) :
    (∀ s : WriterState, MemoryWriter.pack s type v = (none, s)) ∧
    (∀ s : WriterState, BinaryWriter.pack s type v = (none, s)) := by
  have hpk : ∀ e, pk e type v = none := by
    intro e
    simp only [pk, ht]
    cases signed with
    | false =>
      simp only [Bool.false_eq_true, if_false] at hv ⊢
      rw [if_neg hv]
    | true =>
      simp only [if_true] at hv ⊢
      rw [if_neg hv]
  constructor <;> intro s
  · simp only [MemoryWriter.pack, hpk]
  · simp only [BinaryWriter.pack, hpk]

/-- Witness for C10 at a concrete input: `write_u8(-1)` (via
`pack("B", -1)`) on a fresh LITTLE-endian memory writer fails and leaves
the state exactly as it was. -/
theorem pack_out_of_range_atomic_witness :
    MemoryWriter.pack (freshWriter BinaryEndian.LITTLE) "B" (-1) =
      (none, freshWriter BinaryEndian.LITTLE) :=
  (pack_out_of_range_atomic "B" 1 false rfl (-1) (by decide)).1
    (freshWriter BinaryEndian.LITTLE)

/-- C2 (code defect): both null-terminated string round-trip endpoints
crash. The classes define their one-byte accessors as `read_u8` and
`write_u8`, but `read_ascii_nt_str` loops on `self.read_ubyte()` and
`write_ascii_nt_str` calls `self.write_ubyte(nt)` — names from an older
revision that no longer exist — so reading the bytes 61 62 63 00 raises
`AttributeError` instead of returning "abc", and writing "abc" with
terminator 0 emits 61 62 63 and then raises instead of emitting
61 62 63 00. -/
theorem nt_str_methods_missing :
    BinaryReader.getMethod "read_ubyte" = none ∧
    MemoryWriter.getMethod "write_ubyte" = none ∧
    BinaryReader.read_ascii_nt_str
        (readerOver BinaryEndian.LITTLE [0x61, 0x62, 0x63, 0x00]) 0 =
      .error "AttributeError: read_ubyte" ∧
    MemoryWriter.write_ascii_nt_str (freshWriter BinaryEndian.LITTLE) "abc" 0 =
      .error "AttributeError: write_ubyte" := by
  exact ⟨rfl, rfl, rfl, rfl⟩

/-- C3 (code defect): `BinaryWriter` defines neither `seek` nor `tell`
(unlike `BinaryReader`, it never delegates them to `self.fp`), so the
Reader's contract cannot hold: `tell()` and `seek()` raise
`AttributeError`, and the `skip` and `align` the class does define call
`self.tell()` first and raise the same error. -/
theorem binarywriter_seek_tell_missing :
    BinaryWriter.attrNames.contains "tell" = false ∧
    BinaryWriter.attrNames.contains "seek" = false ∧
    BinaryWriter.tell (⟨BinaryEndian.LITTLE, [], 0⟩ : WriterState) =
      .error "AttributeError: tell" ∧
    BinaryWriter.skip (⟨BinaryEndian.LITTLE, [], 0⟩ : WriterState) 0 =
      .error "AttributeError: tell" ∧
    BinaryWriter.align (⟨BinaryEndian.LITTLE, [], 0⟩ : WriterState) 4 =
      .error "AttributeError: tell" := by
  exact ⟨by decide, by decide, rfl, rfl, rfl⟩
